import Mathlib

/- Verification development for the Fit-Friend pose-analysis engine.

   This file gives a shallow embedding, in Lean 4, of the algorithmic core of
   the repository: the per-exercise hysteresis repetition counters and the
   per-frame rep-count dispatch (pose_tracker.py), the exercise-classification
   smoothing state machine (pose_tracker.py), the rule-based exercise
   classifier and form-quality scorer (features.py), the joint-angle geometry
   primitive (features.py), and the batch video session aggregator together
   with its statistical rep estimator (app.py).

   Numeric modelling: the Python code computes with IEEE floats; here angles,
   distances and scores are modelled as exact rationals (and as reals where
   genuine transcendental functions, arccos and sqrt, appear).  State that the
   Python mutates in place is threaded explicitly. -/

/- ===================================================================
   Hysteresis repetition counters (src/pose_tracker.py)
   =================================================================== -/

/-- State of one per-exercise hysteresis rep counter, mirroring one entry of
    IntegratedPoseCoach.rep_states.  The Python dict also carries a
    last_angle slot that is initialised to None and never read or written by
    the counting code, so it is omitted here. -/
structure RepState where
  threshold_low : ℚ
  threshold_high : ℚ
  current_phase : String
  deriving Repr, DecidableEq

/-- Initial squat counter entry of IntegratedPoseCoach.rep_states. -/
def squatInit : RepState := ⟨120, 160, "up"⟩

/-- Initial bicep_curl counter entry of IntegratedPoseCoach.rep_states. -/
def bicepInit : RepState := ⟨90, 150, "down"⟩

/-- Initial push_up counter entry of IntegratedPoseCoach.rep_states. -/
def pushupInit : RepState := ⟨110, 160, "up"⟩

/-- One step of IntegratedPoseCoach._count_reps_squat: the Python mutates
    state and self.rep_count in place; here the updated pair is returned. -/
def count_reps_squat (knee_angle : ℚ) (state : RepState) (rep_count : ℕ) :
    RepState × ℕ :=
  if state.current_phase = "up" ∧ knee_angle < state.threshold_low then
    ({ state with current_phase := "down" }, rep_count)
  else if state.current_phase = "down" ∧ knee_angle > state.threshold_high then
    ({ state with current_phase := "up" }, rep_count + 1)
  else (state, rep_count)

/-- One step of IntegratedPoseCoach._count_reps_bicep. -/
def count_reps_bicep (elbow_angle : ℚ) (state : RepState) (rep_count : ℕ) :
    RepState × ℕ :=
  if state.current_phase = "down" ∧ elbow_angle < state.threshold_low then
    ({ state with current_phase := "up" }, rep_count)
  else if state.current_phase = "up" ∧ elbow_angle > state.threshold_high then
    ({ state with current_phase := "down" }, rep_count + 1)
  else (state, rep_count)

/-- One step of IntegratedPoseCoach._count_reps_pushup. -/
def count_reps_pushup (elbow_angle : ℚ) (state : RepState) (rep_count : ℕ) :
    RepState × ℕ :=
  if state.current_phase = "up" ∧ elbow_angle < state.threshold_low then
    ({ state with current_phase := "down" }, rep_count)
  else if state.current_phase = "down" ∧ elbow_angle > state.threshold_high then
    ({ state with current_phase := "up" }, rep_count + 1)
  else (state, rep_count)

/-- The mutable coach state touched by rep counting: the smoothed exercise
    label, the global rep counter, and the three per-exercise counter
    entries of rep_states. -/
structure CoachState where
  current_exercise : String
  rep_count : ℕ
  squat : RepState
  bicep_curl : RepState
  push_up : RepState
  deriving Repr, DecidableEq

/-- The angle features that update_rep_count reads from the features dict.
    Each field is Option-valued to mirror the membership tests
    ("right_knee_angle" in features, and so on) in the Python code. -/
structure RepFeatures where
  right_knee_angle : Option ℚ
  left_knee_angle : Option ℚ
  right_elbow_angle : Option ℚ
  left_elbow_angle : Option ℚ
  deriving Repr, DecidableEq

/-- IntegratedPoseCoach.update_rep_count: dispatches on the current exercise
    and feeds the relevant averaged joint angle to that exercise's counter.
    The Python first returns early when current_exercise is not a key of
    rep_states (whose keys are exactly squat, bicep_curl, push_up); the
    final else branch below is that early return. -/
def update_rep_count (s : CoachState) (f : RepFeatures) : CoachState :=
  if s.current_exercise = "squat" then
    match f.right_knee_angle, f.left_knee_angle with
    | some r, some l =>
      let res := count_reps_squat ((r + l) / 2) s.squat s.rep_count
      { s with squat := res.1, rep_count := res.2 }
    | _, _ => s
  else if s.current_exercise = "bicep_curl" then
    match f.right_elbow_angle, f.left_elbow_angle with
    | some r, some l =>
      let res := count_reps_bicep ((r + l) / 2) s.bicep_curl s.rep_count
      { s with bicep_curl := res.1, rep_count := res.2 }
    | _, _ => s
  else if s.current_exercise = "push_up" then
    match f.right_elbow_angle, f.left_elbow_angle with
    | some r, some l =>
      let res := count_reps_pushup ((r + l) / 2) s.push_up s.rep_count
      { s with push_up := res.1, rep_count := res.2 }
    | _, _ => s
  else s

/-- Feeding a sequence of average knee angles to the squat counter, starting
    from the initial squat state with rep count 0. -/
def runSquatAngles (angles : List ℚ) : RepState × ℕ :=
  angles.foldl (fun p a => count_reps_squat a p.1 p.2) (squatInit, 0)

/- Helper monotonicity lemmas for the three counters. -/

/-- The squat counter never decreases the rep count. -/
theorem count_reps_squat_le (a : ℚ) (st : RepState) (n : ℕ) :
    n ≤ (count_reps_squat a st n).2 := by
  unfold count_reps_squat
  split
  · exact le_refl n
  · split
    · exact Nat.le_succ n
    · exact le_refl n

/-- The bicep counter never decreases the rep count. -/
theorem count_reps_bicep_le (a : ℚ) (st : RepState) (n : ℕ) :
    n ≤ (count_reps_bicep a st n).2 := by
  unfold count_reps_bicep
  split
  · exact le_refl n
  · split
    · exact Nat.le_succ n
    · exact le_refl n

/-- The push-up counter never decreases the rep count. -/
theorem count_reps_pushup_le (a : ℚ) (st : RepState) (n : ℕ) :
    n ≤ (count_reps_pushup a st n).2 := by
  unfold count_reps_pushup
  split
  · exact le_refl n
  · split
    · exact Nat.le_succ n
    · exact le_refl n

/-- A single update_rep_count step never decreases the rep count. -/
theorem update_rep_count_le (s : CoachState) (f : RepFeatures) :
    s.rep_count ≤ (update_rep_count s f).rep_count := by
  unfold update_rep_count
  repeat' split
  all_goals first
    | exact le_refl _
    | exact count_reps_squat_le _ _ _
    | exact count_reps_bicep_le _ _ _
    | exact count_reps_pushup_le _ _ _

/-- C1: the live squat hysteresis counter, starting in phase up with
    thresholds low 120 and high 160, counts 1 rep on the average knee-angle
    sequence 170, 100, 170 and 0 reps on 170, 100; and whenever the counter
    is in the down phase and the angle crosses above the high threshold it
    returns to the up phase and increments the rep count by exactly one. -/
theorem squat_hysteresis_C1 :
    (runSquatAngles [170, 100, 170]).2 = 1 ∧
    (runSquatAngles [170, 100]).2 = 0 ∧
    ∀ (st : RepState) (n : ℕ) (a : ℚ),
      st.current_phase = "down" → a > st.threshold_high →
      count_reps_squat a st n = ({ st with current_phase := "up" }, n + 1) := by
  refine ⟨by decide, by decide, ?_⟩
  intro st n a hp ha
  have h1 : ¬(st.current_phase = "up" ∧ a < st.threshold_low) := by
    rintro ⟨h, -⟩
    rw [hp] at h
    exact absurd h (by decide)
  unfold count_reps_squat
  rw [if_neg h1, if_pos ⟨hp, ha⟩]

/-- Witness for C1: the counter in the down phase at angle 170 flips to up
    and increments 3 to 4. -/
theorem squat_hysteresis_C1_witness :
    count_reps_squat 170 ⟨120, 160, "down"⟩ 3 = (⟨120, 160, "up"⟩, 4) :=
  squat_hysteresis_C1.2.2 ⟨120, 160, "down"⟩ 3 170 rfl (by norm_num)

/-- C9: the rep count is monotonically non-decreasing under update_rep_count,
    both over a single update and over any sequence of feature inputs. -/
theorem rep_count_monotone_C9 :
    (∀ (s : CoachState) (f : RepFeatures),
      s.rep_count ≤ (update_rep_count s f).rep_count) ∧
    ∀ (s : CoachState) (fs : List RepFeatures),
      s.rep_count ≤ (fs.foldl update_rep_count s).rep_count := by
  refine ⟨update_rep_count_le, ?_⟩
  intro s fs
  induction fs generalizing s with
  | nil => exact le_refl _
  | cons f fs ih =>
    exact le_trans (update_rep_count_le s f) (ih (update_rep_count s f))

/-- C10: when the current exercise is none of squat, bicep_curl, push_up,
    update_rep_count is a complete no-op: the whole coach state, rep count
    and every per-exercise phase included, is returned unchanged. -/
theorem update_rep_count_noop_C10 (s : CoachState) (f : RepFeatures)
    (h : s.current_exercise ∉ (["squat", "bicep_curl", "push_up"] : List String)) :
    update_rep_count s f = s := by
  simp only [List.mem_cons, not_or] at h
  obtain ⟨h1, h2, h3, -⟩ := h
  unfold update_rep_count
  rw [if_neg h1, if_neg h2, if_neg h3]

/-- Witness for C10: with the exercise set to plank and all four angle
    features present, the update leaves the state untouched. -/
theorem update_rep_count_noop_C10_witness :
    update_rep_count ⟨"plank", 2, squatInit, bicepInit, pushupInit⟩
      ⟨some 100, some 100, some 100, some 100⟩ =
      ⟨"plank", 2, squatInit, bicepInit, pushupInit⟩ :=
  update_rep_count_noop_C10 ⟨"plank", 2, squatInit, bicepInit, pushupInit⟩
    ⟨some 100, some 100, some 100, some 100⟩ (by decide)

/- ===================================================================
   Exercise-classification smoothing (src/pose_tracker.py)
   =================================================================== -/

/-- Append to a deque with maxlen 10 (exercise_history): the oldest entry is
    dropped from the front once the window is full. -/
def pushHist (h : List String) (x : String) : List String :=
  if h.length < 10 then h ++ [x] else h.tail ++ [x]

/-- The keys of the Python counting dict in insertion order: the distinct
    labels of the history in order of first occurrence. -/
def firstKeys (h : List String) : List String :=
  h.foldl (fun acc x => if x ∈ acc then acc else acc ++ [x]) []

/-- The Python expression max(exercise_counts, key=exercise_counts.get):
    among the dict keys in insertion order, the first one whose count is
    maximal (a later key replaces the running best only on a strictly
    greater count, exactly as Python max does). -/
def mostCommon (h : List String) : String :=
  match firstKeys h with
  | [] => "unknown"
  | k :: ks => ks.foldl (fun best k2 => if h.count k2 > h.count best then k2 else best) k

/-- The state read and written by smooth_exercise_detection: the label
    history window, the smoothed current_exercise, and exercise_confidence. -/
structure SmoothState where
  history : List String
  current : String
  confidence : ℚ
  deriving Repr, DecidableEq

/-- Initial smoothing state from IntegratedPoseCoach.__init__ : empty
    history, exercise unknown, confidence 0. -/
def smoothInit : SmoothState := ⟨[], "unknown", 0⟩

/-- IntegratedPoseCoach.smooth_exercise_detection.  A None detection is
    replaced by "unknown"; the detection is appended to the window; once the
    window holds at least 5 labels the majority label and its confidence are
    recomputed, and the public label and confidence are overwritten only
    when that confidence is at least 0.6 (the Python comparison is
    confidence >= 0.6, and 0.6 is exactly 3/5 here). -/
def smooth_exercise_detection (s : SmoothState) (detected : Option String) :
    SmoothState :=
  let d := detected.getD "unknown"
  let h := pushHist s.history d
  if 5 ≤ h.length then
    let mc := mostCommon h
    let conf : ℚ := (h.count mc : ℚ) / (h.length : ℚ)
    if conf ≥ 3 / 5 then ⟨h, mc, conf⟩ else ⟨h, s.current, s.confidence⟩
  else ⟨h, s.current, s.confidence⟩

/-- Feeding a list of raw detections through the smoother. -/
def runSmooth (s : SmoothState) (l : List (Option String)) : SmoothState :=
  l.foldl smooth_exercise_detection s

/-- The alternating raw-label sequence A, B, A, B, ... of length n. -/
def altList (A B : String) : ℕ → List String
  | 0 => []
  | n + 1 => A :: altList B A n

/- Facts about the alternating label sequence and the smoothing window. -/

/-- Length of the alternating sequence. -/
theorem altList_length (A B : String) (n : ℕ) : (altList A B n).length = n := by
  induction n generalizing A B with
  | zero => rfl
  | succ n ih => simp [altList, ih]

/-- The alternating sequence grows at the back by A on even steps and B on
    odd steps. -/
theorem altList_snoc (A B : String) (n : ℕ) :
    altList A B (n + 1) = altList A B n ++ [if n % 2 = 0 then A else B] := by
  induction n generalizing A B with
  | zero => rfl
  | succ n ih =>
    show A :: altList B A (n + 1) = A :: altList B A n ++ _
    rw [ih B A]
    rcases Nat.even_or_odd n with h | h
    · have h0 : n % 2 = 0 := Nat.even_iff.mp h
      have h1 : (n + 1) % 2 ≠ 0 := by omega
      simp [h0, h1]
    · have h0 : n % 2 ≠ 0 := by
        have := Nat.odd_iff.mp h
        omega
      have h1 : (n + 1) % 2 = 0 := by
        have := Nat.odd_iff.mp h
        omega
      simp [h0, h1]

/-- No label occurs more than ceil(m / 2) times in an alternating sequence of
    two distinct labels of length m. -/
theorem altList_count_le (m : ℕ) : ∀ (X Y c : String), X ≠ Y →
    (altList X Y m).count c ≤ (m + 1) / 2 := by
  induction m using Nat.twoStepInduction with
  | zero => intro X Y c _; simp [altList]
  | one =>
    intro X Y c _
    simp only [altList, List.count_cons, List.count_nil]
    split <;> omega
  | more m ih _ =>
    intro X Y c hXY
    show ((X :: Y :: altList X Y m).count c) ≤ (m + 2 + 1) / 2
    have hm := ih X Y c hXY
    by_cases hX : c = X
    · rw [hX] at hm ⊢
      rw [List.count_cons_self, List.count_cons_of_ne hXY]
      omega
    · rw [List.count_cons_of_ne hX]
      by_cases hY : c = Y
      · rw [hY] at hm ⊢
        rw [List.count_cons_self]
        omega
      · rw [List.count_cons_of_ne hY]
        omega

/-- The smoothing window expected after feeding n alternating labels: the
    whole alternating sequence while it fits in the 10-deep deque, then the
    last ten entries, whose first label depends on the parity of n. -/
def altWin (A B : String) (n : ℕ) : List String :=
  if n ≤ 10 then altList A B n
  else if n % 2 = 0 then altList A B 10 else altList B A 10

/-- One smoothing step always records the (None-defaulted) detection in the
    history window, whichever branch is taken. -/
theorem smooth_history (s : SmoothState) (d : Option String) :
    (smooth_exercise_detection s d).history = pushHist s.history (d.getD "unknown") := by
  simp only [smooth_exercise_detection]
  split
  · split <;> rfl
  · rfl

/-- Feeding one more detection peels off the foldl from the right. -/
theorem runSmooth_snoc (s : SmoothState) (l : List (Option String)) (x : Option String) :
    runSmooth s (l ++ [x]) = smooth_exercise_detection (runSmooth s l) x := by
  simp [runSmooth]

/-- Pushing the next alternating label onto the expected window yields the
    next expected window. -/
theorem altWin_push (A B : String) (n : ℕ) :
    pushHist (altWin A B n) (if n % 2 = 0 then A else B) = altWin A B (n + 1) := by
  unfold altWin pushHist
  by_cases h1 : n ≤ 9
  · have hA : n ≤ 10 := by omega
    have hB : n + 1 ≤ 10 := by omega
    rw [if_pos hA, if_pos hB, altList_length A B n, if_pos (show n < 10 by omega)]
    exact (altList_snoc A B n).symm
  · have hN : ¬(n + 1 ≤ 10) := by omega
    rw [if_neg hN]
    by_cases hp : n % 2 = 0
    · have hwin : (if n ≤ 10 then altList A B n
          else if n % 2 = 0 then altList A B 10 else altList B A 10) = altList A B 10 := by
        by_cases h10 : n ≤ 10
        · have h : n = 10 := by omega
          rw [if_pos h10, h]
        · rw [if_neg h10, if_pos hp]
      rw [hwin, altList_length A B 10, if_neg (show ¬(10 < 10) by omega)]
      have hp1 : ¬((n + 1) % 2 = 0) := by omega
      rw [if_neg hp1, if_pos hp]
      show altList B A 9 ++ [A] = altList B A 10
      rw [altList_snoc B A 9]
      norm_num
    · have hwin : (if n ≤ 10 then altList A B n
          else if n % 2 = 0 then altList A B 10 else altList B A 10) = altList B A 10 := by
        have h10 : ¬(n ≤ 10) := by omega
        rw [if_neg h10, if_neg hp]
      rw [hwin, altList_length B A 10, if_neg (show ¬(10 < 10) by omega)]
      have hp1 : (n + 1) % 2 = 0 := by omega
      rw [if_pos hp1, if_neg hp]
      show altList A B 9 ++ [B] = altList A B 10
      rw [altList_snoc A B 9]
      norm_num

/-- The history after feeding n alternating labels from the initial state is
    exactly the expected window. -/
theorem alt_history (A B : String) (n : ℕ) :
    (runSmooth smoothInit ((altList A B n).map Option.some)).history = altWin A B n := by
  induction n with
  | zero => rfl
  | succ n ih =>
    rw [altList_snoc, List.map_append]
    rw [show (List.map Option.some [if n % 2 = 0 then A else B])
        = [some (if n % 2 = 0 then A else B)] from rfl]
    rw [runSmooth_snoc, smooth_history, ih, Option.getD_some]
    exact altWin_push A B n

/-- The expected window is an alternating list of length min n 10 starting
    from one of the two labels. -/
theorem altWin_eq (A B : String) (n : ℕ) :
    altWin A B n = altList A B (min n 10) ∨ altWin A B n = altList B A (min n 10) := by
  unfold altWin
  split
  · left
    congr 1
    omega
  · split
    · left
      congr 1
      omega
    · right
      congr 1
      omega

/-- Any label makes up at most 3/5 of an alternating window of two distinct
    labels once the window holds at least 5 entries. -/
theorem alt_conf_le (X Y : String) (hXY : X ≠ Y) (m : ℕ) (hm : 5 ≤ m) (c : String) :
    ((altList X Y m).count c : ℚ) / ((altList X Y m).length : ℚ) ≤ 3 / 5 := by
  have h5 : (altList X Y m).count c * 5 ≤ 3 * m := by
    have := altList_count_le m X Y c hXY
    omega
  rw [altList_length]
  rw [div_le_div_iff₀ (by exact_mod_cast (show 0 < m by omega)) (by norm_num)]
  exact_mod_cast h5

/-- Feeding any number of strictly alternating labels never drives the stored
    confidence above 3/5. -/
theorem alt_confidence_le (A B : String) (hAB : A ≠ B) (n : ℕ) :
    (runSmooth smoothInit ((altList A B n).map Option.some)).confidence ≤ 3 / 5 := by
  induction n with
  | zero => norm_num [runSmooth, smoothInit, altList]
  | succ n ih =>
    rw [altList_snoc, List.map_append]
    rw [show (List.map Option.some [if n % 2 = 0 then A else B])
        = [some (if n % 2 = 0 then A else B)] from rfl]
    rw [runSmooth_snoc]
    simp only [smooth_exercise_detection]
    have hh : pushHist (runSmooth smoothInit (List.map Option.some (altList A B n))).history
        ((some (if n % 2 = 0 then A else B)).getD "unknown") = altWin A B (n + 1) := by
      rw [Option.getD_some, alt_history]
      exact altWin_push A B n
    rw [hh]
    rcases altWin_eq A B (n + 1) with hw | hw <;> rw [hw]
    · split
      · rename_i h5
        split
        · rename_i hconf
          rw [altList_length] at h5
          exact alt_conf_le A B hAB _ h5 _
        · exact ih
      · exact ih
    · split
      · rename_i h5
        split
        · rename_i hconf
          rw [altList_length] at h5
          exact alt_conf_le B A (Ne.symm hAB) _ h5 _
        · exact ih
      · exact ih

/-- Five identical raw labels from the initial state: full-window majority,
    confidence 1, immediate switch. -/
theorem runSmooth_const (L : String) :
    (runSmooth smoothInit (List.replicate 5 (some L))).current = L ∧
    (runSmooth smoothInit (List.replicate 5 (some L))).confidence = 1 := by
  have h : runSmooth smoothInit (List.replicate 5 (some L))
      = ⟨List.replicate 5 L, L, 1⟩ := by
    norm_num [runSmooth, smooth_exercise_detection, pushHist, firstKeys, mostCommon,
      smoothInit, List.count_cons, List.replicate]
  rw [h]
  exact ⟨rfl, rfl⟩

/-- Five strictly alternating raw labels from the initial state: at the fifth
    frame the majority label A has count 3 of 5, confidence exactly 3/5,
    which meets the update threshold, so the public label switches to A. -/
theorem runSmooth_alt5 (A B : String) (hAB : A ≠ B) :
    (runSmooth smoothInit ((altList A B 5).map Option.some)).current = A ∧
    (runSmooth smoothInit ((altList A B 5).map Option.some)).confidence = 3 / 5 := by
  have h : runSmooth smoothInit ((altList A B 5).map Option.some)
      = ⟨[A, B, A, B, A], A, 3 / 5⟩ := by
    norm_num [runSmooth, altList, smooth_exercise_detection, pushHist, firstKeys,
      mostCommon, smoothInit, List.count_cons, hAB, hAB.symm]
  rw [h]
  exact ⟨rfl, rfl⟩

/-- Counterexample to C5: feeding the alternating 50/50 sequence squat,
    push_up, squat, push_up, squat from the initial state, the publicly
    visible smoothed label does change from its initial value "unknown":
    at the fifth frame the majority count is 3 of 5, the computed confidence
    3/5 meets the update test (the code compares with >= 0.6), and the label
    becomes squat. -/
theorem smoothing_C5_counterexample :
    (runSmooth smoothInit ((altList "squat" "push_up" 5).map Option.some)).current
      ≠ smoothInit.current := by
  have h := runSmooth_alt5 "squat" "push_up" (by decide)
  rw [h.1]
  decide

/-- C5 amended: feeding the same raw label 5 times from the initial state
    yields confidence 1 and an immediate switch to that label; feeding a
    strictly alternating sequence of two distinct labels, the confidence
    never exceeds 0.6, but at the fifth frame it reaches exactly 0.6, which
    meets the >= 0.6 threshold, so the smoothed label changes to the
    majority (first-fed) label instead of staying at its initial value. -/
theorem smoothing_C5_amended :
    (∀ L : String,
      (runSmooth smoothInit (List.replicate 5 (some L))).current = L ∧
      (runSmooth smoothInit (List.replicate 5 (some L))).confidence = 1) ∧
    (∀ A B : String, A ≠ B → ∀ n : ℕ,
      (runSmooth smoothInit ((altList A B n).map Option.some)).confidence ≤ 3 / 5) ∧
    (∀ A B : String, A ≠ B →
      (runSmooth smoothInit ((altList A B 5).map Option.some)).current = A ∧
      (runSmooth smoothInit ((altList A B 5).map Option.some)).confidence = 3 / 5) :=
  ⟨runSmooth_const, fun A B hAB n => alt_confidence_le A B hAB n, runSmooth_alt5⟩

/-- Witness for C5 amended, at the concrete labels squat and push_up. -/
theorem smoothing_C5_witness :
    (runSmooth smoothInit (List.replicate 5 (some "squat"))).current = "squat" ∧
    (runSmooth smoothInit ((altList "squat" "push_up" 7).map Option.some)).confidence
      ≤ 3 / 5 ∧
    (runSmooth smoothInit ((altList "squat" "push_up" 5).map Option.some)).current
      = "squat" :=
  ⟨(smoothing_C5_amended.1 "squat").1,
   smoothing_C5_amended.2.1 "squat" "push_up" (by decide) 7,
   (smoothing_C5_amended.2.2 "squat" "push_up" (by decide)).1⟩

/- ===================================================================
   Feature vector, exercise classifier, form scorer (src/features.py)
   =================================================================== -/

/-- The six per-joint angular velocities produced by
    calculate_temporal_features once the angle history holds at least two
    entries (velocity = |current - previous| / (1/30)).  The derived
    is_fast boolean flags are recomputed from these and read by nobody
    downstream, so they are not carried separately. -/
structure Velocities where
  right_knee_angle_velocity : ℚ
  left_knee_angle_velocity : ℚ
  right_hip_angle_velocity : ℚ
  left_hip_angle_velocity : ℚ
  right_elbow_angle_velocity : ℚ
  left_elbow_angle_velocity : ℚ
  deriving Repr, DecidableEq

/-- The per-frame feature dict built by extract_comprehensive_features: the
    six joint angles, the alignment and symmetry measures, the visibility
    summary, and the temporal velocities (absent on the first frame of a
    history, present afterwards; the scorer reads them through
    features.get(key, 0)). -/
structure Features where
  right_knee_angle : ℚ
  left_knee_angle : ℚ
  right_hip_angle : ℚ
  left_hip_angle : ℚ
  right_elbow_angle : ℚ
  left_elbow_angle : ℚ
  spine_angle : ℚ
  knee_symmetry : ℚ
  hip_symmetry : ℚ
  shoulder_symmetry : ℚ
  foot_distance : ℚ
  torso_lean : ℚ
  shoulder_hip_distance : ℚ
  avg_visibility : ℚ
  min_visibility : ℚ
  temporal : Option Velocities
  deriving Repr, DecidableEq

/-- The value of features.get("right_knee_angle_velocity", 0). -/
def Features.knee_velocity (f : Features) : ℚ :=
  match f.temporal with
  | none => 0
  | some v => v.right_knee_angle_velocity

/-- The value of features.get("right_elbow_angle_velocity", 0). -/
def Features.elbow_velocity (f : Features) : ℚ :=
  match f.temporal with
  | none => 0
  | some v => v.right_elbow_angle_velocity

/-- The squat branch condition of detect_exercise_type.  Every feature the
    dict lookups fall back on (foot_distance, spine_angle, and so on) is
    always present in a successfully extracted feature dict, so the
    .get defaults never fire and plain field access is used here. -/
def squat_rule (f : Features) : Prop :=
  (f.right_knee_angle + f.left_knee_angle) / 2 < 140 ∧
  (f.right_hip_angle + f.left_hip_angle) / 2 < 130 ∧
  f.foot_distance > 40 ∧
  f.spine_angle > 160

/-- The bicep_curl branch condition of detect_exercise_type. -/
def bicep_curl_rule (f : Features) : Prop :=
  (f.right_elbow_angle + f.left_elbow_angle) / 2 < 120 ∧
  f.shoulder_hip_distance > 100 ∧
  f.torso_lean < 20

/-- The push_up branch condition of detect_exercise_type. -/
def push_up_rule (f : Features) : Prop :=
  (f.right_elbow_angle + f.left_elbow_angle) / 2 < 130 ∧
  f.spine_angle > 160 ∧
  f.shoulder_hip_distance < 80

/-- The plank branch condition of detect_exercise_type. -/
def plank_rule (f : Features) : Prop :=
  f.spine_angle > 170 ∧ f.shoulder_hip_distance < 60

instance (f : Features) : Decidable (squat_rule f) := by
  unfold squat_rule
  infer_instance

instance (f : Features) : Decidable (bicep_curl_rule f) := by
  unfold bicep_curl_rule
  infer_instance

instance (f : Features) : Decidable (push_up_rule f) := by
  unfold push_up_rule
  infer_instance

instance (f : Features) : Decidable (plank_rule f) := by
  unfold plank_rule
  infer_instance

/-- detect_exercise_type: first matching rule wins, in the fixed priority
    order squat, bicep_curl, push_up, plank, else unknown. -/
def detect_exercise_type (f : Features) : String :=
  if squat_rule f then "squat"
  else if bicep_curl_rule f then "bicep_curl"
  else if push_up_rule f then "push_up"
  else if plank_rule f then "plank"
  else "unknown"

/-- A feature vector satisfying both the squat rule and the bicep_curl rule
    at once: bent knees and hips, wide stance and upright spine for the
    squat test, and at the same time bent elbows, large shoulder-hip
    distance and small torso lean for the bicep test. -/
def bothRulesVec : Features :=
  { right_knee_angle := 100, left_knee_angle := 100
    right_hip_angle := 100, left_hip_angle := 100
    right_elbow_angle := 100, left_elbow_angle := 100
    spine_angle := 165, knee_symmetry := 0, hip_symmetry := 0
    shoulder_symmetry := 0, foot_distance := 50, torso_lean := 10
    shoulder_hip_distance := 150, avg_visibility := 1, min_visibility := 1
    temporal := none }

/-- Counterexample to C4: the four classification rules are not mutually
    exclusive: bothRulesVec satisfies the squat predicate and the
    bicep_curl predicate simultaneously (the two predicates constrain
    disjoint features), so more than one of the four rule predicates can
    hold for a single feature vector. -/
theorem classifier_C4_counterexample :
    squat_rule bothRulesVec ∧ bicep_curl_rule bothRulesVec := by
  constructor
  · unfold squat_rule bothRulesVec
    norm_num
  · unfold bicep_curl_rule bothRulesVec
    norm_num

/-- C4 amended: the four rules are not mutually exclusive, so the fixed
    priority order squat, bicep_curl, push_up, plank genuinely decides the
    label when several predicates hold; nevertheless, a feature vector
    satisfying exactly one of the four predicates always receives that
    predicate's label, and one satisfying none is labelled unknown. -/
theorem classifier_C4_amended (f : Features) :
    (squat_rule f → detect_exercise_type f = "squat") ∧
    (¬squat_rule f ∧ bicep_curl_rule f → detect_exercise_type f = "bicep_curl") ∧
    (¬squat_rule f ∧ ¬bicep_curl_rule f ∧ push_up_rule f →
      detect_exercise_type f = "push_up") ∧
    (¬squat_rule f ∧ ¬bicep_curl_rule f ∧ ¬push_up_rule f ∧ plank_rule f →
      detect_exercise_type f = "plank") ∧
    (¬squat_rule f ∧ ¬bicep_curl_rule f ∧ ¬push_up_rule f ∧ ¬plank_rule f →
      detect_exercise_type f = "unknown") := by
  unfold detect_exercise_type
  refine ⟨fun h1 => ?_, fun ⟨h1, h2⟩ => ?_, fun ⟨h1, h2, h3⟩ => ?_,
    fun ⟨h1, h2, h3, h4⟩ => ?_, fun ⟨h1, h2, h3, h4⟩ => ?_⟩
  · rw [if_pos h1]
  · rw [if_neg h1, if_pos h2]
  · rw [if_neg h1, if_neg h2, if_pos h3]
  · rw [if_neg h1, if_neg h2, if_neg h3, if_pos h4]
  · rw [if_neg h1, if_neg h2, if_neg h3, if_neg h4]

/-- A feature vector satisfying exactly the squat rule: as bothRulesVec but
    with straight elbows, so the bicep_curl and push_up predicates fail,
    and spine 165 keeps the plank predicate false. -/
def onlySquatVec : Features :=
  { bothRulesVec with right_elbow_angle := 170, left_elbow_angle := 170 }

/-- Witness for C4 amended: onlySquatVec satisfies only the squat rule and
    is classified squat. -/
theorem classifier_C4_amended_witness :
    detect_exercise_type onlySquatVec = "squat" :=
  (classifier_C4_amended onlySquatVec).1
    (by unfold squat_rule onlySquatVec bothRulesVec; norm_num)

/-- The dict returned by analyze_form_quality. -/
structure FormAnalysis where
  overall_score : ℤ
  issues : List String
  recommendations : List String
  deriving Repr, DecidableEq

/-- Running accumulator of analyze_form_quality: the score together with the
    issue and recommendation lists that the Python mutates in place.
    Apostrophes in two recommendation texts are dropped here; no claim
    inspects the message texts. -/
structure ScoreAcc where
  score : ℤ
  issues : List String
  recommendations : List String

/-- One scoring rule of analyze_form_quality: a fired/not-fired condition, a
    fixed penalty, and the issue and recommendation texts appended when the
    rule fires. -/
structure FormRule where
  cond : Bool
  penalty : ℤ
  issue : String
  advice : String
  deriving Repr, DecidableEq

/-- Apply one rule to the running accumulator: subtract the penalty and
    append the texts when the condition fired, otherwise leave the
    accumulator unchanged. -/
def applyRule (a : ScoreAcc) (r : FormRule) : ScoreAcc :=
  if r.cond then
    ⟨a.score - r.penalty, a.issues ++ [r.issue], a.recommendations ++ [r.advice]⟩
  else a

/-- The squat rule block of analyze_form_quality, in source order.  The
    second rule carries the elif guard of the knee-depth pair spelled out
    (not deeper than 60, yet shallower than 140), which is equivalent to
    the source elif since both depth conditions cannot hold at once. -/
def squat_rule_list (f : Features) : List FormRule :=
  let avg_knee := (f.right_knee_angle + f.left_knee_angle) / 2
  let avg_hip := (f.right_hip_angle + f.left_hip_angle) / 2
  [ ⟨decide (avg_knee < 60), 20, "Squatting too deep - risk of knee injury",
      "Dont go below parallel (90 degrees)"⟩,
    ⟨decide (¬avg_knee < 60 ∧ avg_knee > 140), 15, "Not squatting deep enough",
      "Go deeper until thighs are parallel"⟩,
    ⟨decide (avg_hip < 60), 20, "Hips not hinging properly",
      "Push hips back more, imagine sitting in a chair"⟩,
    ⟨decide (f.torso_lean > 30), 15, "Leaning forward too much",
      "Keep chest up and core engaged"⟩,
    ⟨decide (f.knee_symmetry > 15), 10, "Uneven knee positioning",
      "Focus on balanced movement"⟩,
    ⟨decide (f.foot_distance < 40), 10, "Stance too narrow",
      "Widen stance to shoulder width"⟩,
    ⟨decide (f.knee_velocity > 100), 10, "Moving too quickly",
      "Slow down for better control"⟩ ]

/-- The bicep_curl rule block of analyze_form_quality, in source order. -/
def bicep_curl_rule_list (f : Features) : List FormRule :=
  [ ⟨decide (f.right_elbow_angle > 170 ∨ f.left_elbow_angle > 170), 10,
      "Elbow overextending", "Dont fully lock out elbows"⟩,
    ⟨decide (f.elbow_velocity > 150), 20, "Using momentum - swinging weights",
      "Use controlled movements"⟩,
    ⟨decide (f.torso_lean > 15), 10, "Leaning too much",
      "Stand straight, engage core"⟩ ]

/-- The push_up rule block of analyze_form_quality, in source order. -/
def push_up_rule_list (f : Features) : List FormRule :=
  let avg_elbow := (f.right_elbow_angle + f.left_elbow_angle) / 2
  [ ⟨decide (avg_elbow > 160), 15, "Not going down far enough",
      "Lower until chest nearly touches ground"⟩,
    ⟨decide (f.spine_angle < 160), 20, "Hips sagging or piking",
      "Maintain straight line from head to heels"⟩ ]

/-- The universal visibility rule applied after the per-exercise block. -/
def visibility_rule (f : Features) : FormRule :=
  ⟨decide (f.min_visibility < 7 / 10), 5, "Poor camera angle or lighting",
    "Improve camera position and lighting"⟩

/-- The per-exercise dispatch of analyze_form_quality: squat, bicep_curl
    and push_up have rule blocks; any other label (plank included) has no
    exercise-specific rule. -/
def exercise_rule_list (exercise : String) (f : Features) : List FormRule :=
  if exercise = "squat" then squat_rule_list f
  else if exercise = "bicep_curl" then bicep_curl_rule_list f
  else if exercise = "push_up" then push_up_rule_list f
  else []

/-- analyze_form_quality: starts at 100 points, walks the fixed per-exercise
    rule list in source order followed by the universal visibility rule,
    subtracting each fired penalty and appending its texts, and clamps the
    final score at a minimum of 0. -/
def analyze_form_quality (exercise : String) (f : Features) : FormAnalysis :=
  let a : ScoreAcc := ⟨100, [], []⟩
  let a : ScoreAcc := (exercise_rule_list exercise f ++ [visibility_rule f]).foldl applyRule a
  ⟨max a.score 0, a.issues, a.recommendations⟩

/-- Applying any sequence of rules with non-negative penalties never raises
    the score. -/
theorem foldl_applyRule_score_le (rs : List FormRule) :
    ∀ a : ScoreAcc, (∀ r ∈ rs, 0 ≤ r.penalty) →
      (rs.foldl applyRule a).score ≤ a.score := by
  induction rs with
  | nil => intro a _; exact le_refl _
  | cons r rs ih =>
    intro a hp
    have h1 : (applyRule a r).score ≤ a.score := by
      have hr : 0 ≤ r.penalty := hp r (List.mem_cons_self r rs)
      unfold applyRule
      split
      · dsimp only
        omega
      · exact le_refl _
    have h2 := ih (applyRule a r) (fun r2 h => hp r2 (List.mem_cons_of_mem r h))
    calc (rs.foldl applyRule (applyRule a r)).score
        ≤ (applyRule a r).score := h2
      _ ≤ a.score := h1

/-- Every rule of every block carries a non-negative penalty. -/
theorem rule_penalties_nonneg (exercise : String) (f : Features) :
    ∀ r ∈ exercise_rule_list exercise f ++ [visibility_rule f], 0 ≤ r.penalty := by
  intro r hr
  rw [List.mem_append] at hr
  rcases hr with hr | hr
  · unfold exercise_rule_list at hr
    repeat' split at hr
    · unfold squat_rule_list at hr
      dsimp only at hr
      simp only [List.mem_cons, List.not_mem_nil, or_false] at hr
      rcases hr with h | h | h | h | h | h | h <;> rw [h] <;> norm_num
    · unfold bicep_curl_rule_list at hr
      simp only [List.mem_cons, List.not_mem_nil, or_false] at hr
      rcases hr with h | h | h <;> rw [h] <;> norm_num
    · unfold push_up_rule_list at hr
      dsimp only at hr
      simp only [List.mem_cons, List.not_mem_nil, or_false] at hr
      rcases hr with h | h <;> rw [h] <;> norm_num
    · exact absurd hr (List.not_mem_nil r)
  · simp only [List.mem_cons, List.not_mem_nil, or_false] at hr
    rw [hr]
    norm_num [visibility_rule]

/-- C3: for every exercise label and every feature vector, the form score
    lies in the interval 0 to 100: it starts at 100, only fixed penalties
    are ever subtracted, and the result is clamped below at 0, so even a
    maximally penalized input (every rule of the exercise fired) stays in
    range. -/
theorem form_score_bounds_C3 (exercise : String) (f : Features) :
    0 ≤ (analyze_form_quality exercise f).overall_score ∧
    (analyze_form_quality exercise f).overall_score ≤ 100 := by
  unfold analyze_form_quality
  dsimp only
  constructor
  · exact le_max_right _ _
  · apply max_le _ (by norm_num)
    exact foldl_applyRule_score_le _ ⟨100, [], []⟩ (rule_penalties_nonneg exercise f)

/- ===================================================================
   Joint-angle geometry (src/features.py, calculate_angle)
   =================================================================== -/

/-- Two-dimensional dot product, np.dot on length-2 vectors. -/
def dot2 (u v : ℝ × ℝ) : ℝ := u.1 * v.1 + u.2 * v.2

/-- Euclidean norm of a 2-D vector, np.linalg.norm. -/
noncomputable def norm2 (u : ℝ × ℝ) : ℝ := Real.sqrt (u.1 ^ 2 + u.2 ^ 2)

/-- np.clip of a scalar to the interval from lo to hi. -/
def clip (x lo hi : ℝ) : ℝ := max lo (min x hi)

/-- Radians to degrees, np.degrees. -/
noncomputable def toDegrees (x : ℝ) : ℝ := x * (180 / Real.pi)

/-- Python round(value, 2): scale by 100, round to the nearest integer,
    scale back.  Mathlib round is round-half-up while Python uses
    round-half-even; they agree except on exact .005 boundaries, which no
    claim touches. -/
noncomputable def roundTo2 (x : ℝ) : ℝ := (round (x * 100) : ℤ) / 100

/-- AdvancedFeatureExtractor.calculate_angle: the angle at vertex b between
    the rays b to a and b to c, in degrees, via the arccosine of the
    normalized dot product clamped to the interval from -1 to 1; returns 0
    when either ray has zero length. -/
noncomputable def calculate_angle (a b c : ℝ × ℝ) : ℝ :=
  let ba : ℝ × ℝ := (a.1 - b.1, a.2 - b.2)
  let bc : ℝ × ℝ := (c.1 - b.1, c.2 - b.2)
  if norm2 ba = 0 ∨ norm2 bc = 0 then 0
  else
    let cosine := dot2 ba bc / (norm2 ba * norm2 bc)
    roundTo2 (toDegrees (Real.arccos (clip cosine (-1) 1)))

/-- Rounding to two decimals keeps a value of the angle range inside 0 to
    180. -/
theorem roundTo2_bounds (y : ℝ) (h0 : 0 ≤ y) (h1 : y ≤ 180) :
    0 ≤ roundTo2 y ∧ roundTo2 y ≤ 180 := by
  unfold roundTo2
  have hlow : (0 : ℤ) ≤ round (y * 100) := by
    rw [round_eq]
    apply Int.floor_nonneg.mpr
    nlinarith
  have hhigh : round (y * 100) ≤ 18000 := by
    rw [round_eq]
    have h2 : y * 100 + 1 / 2 ≤ (18000 : ℤ) + (1 / 2 : ℝ) := by push_cast; nlinarith
    calc ⌊y * 100 + 1 / 2⌋ ≤ ⌊((18000 : ℤ) : ℝ) + (1 / 2 : ℝ)⌋ := Int.floor_le_floor h2
      _ = 18000 + ⌊(1 / 2 : ℝ)⌋ := Int.floor_int_add _ _
      _ = 18000 := by
          rw [show ⌊(1 / 2 : ℝ)⌋ = 0 from Int.floor_eq_zero_iff.mpr (by norm_num)]
          norm_num
  constructor
  · positivity
  · rw [div_le_iff₀ (by norm_num : (0:ℝ) < 100)]
    calc ((round (y * 100) : ℤ) : ℝ) ≤ ((18000 : ℤ) : ℝ) := by exact_mod_cast hhigh
      _ = 180 * 100 := by norm_num

/-- Degrees of a radian value between 0 and pi lie between 0 and 180. -/
theorem toDegrees_bounds (x : ℝ) (h0 : 0 ≤ x) (h1 : x ≤ Real.pi) :
    0 ≤ toDegrees x ∧ toDegrees x ≤ 180 := by
  unfold toDegrees
  have hpi := Real.pi_pos
  constructor
  · positivity
  · have hstep : x * (180 / Real.pi) ≤ Real.pi * (180 / Real.pi) :=
      mul_le_mul_of_nonneg_right h1 (by positivity)
    have heq : Real.pi * (180 / Real.pi) = 180 := by field_simp
    rw [heq] at hstep
    exact hstep

/-- The exact value of calculate_angle at the spec test vectors: the rays
    from b = (1,0) to a = (0,0) and to c = (1,1) are (-1,0) and (0,1),
    whose dot product is 0, so the angle is arccos 0 = 90 degrees. -/
theorem calculate_angle_corner : calculate_angle (0, 0) (1, 0) (1, 1) = 90 := by
  unfold calculate_angle
  dsimp only
  have hba : norm2 ((0:ℝ) - 1, (0:ℝ) - 0) = 1 := by
    unfold norm2
    norm_num
  have hbc : norm2 ((1:ℝ) - 1, (1:ℝ) - 0) = 1 := by
    unfold norm2
    norm_num
  rw [if_neg (by rw [hba, hbc]; norm_num)]
  have hdot : dot2 ((0:ℝ) - 1, (0:ℝ) - 0) ((1:ℝ) - 1, (1:ℝ) - 0) = 0 := by
    unfold dot2
    norm_num
  rw [hdot, hba, hbc]
  rw [show (0:ℝ) / (1 * 1) = 0 by norm_num]
  rw [show clip 0 (-1) 1 = 0 by unfold clip; norm_num]
  rw [Real.arccos_zero]
  rw [show toDegrees (Real.pi / 2) = 90 by
    unfold toDegrees
    have := Real.pi_ne_zero
    field_simp
    ring]
  unfold roundTo2
  rw [show (90:ℝ) * 100 = ((9000 : ℤ) : ℝ) by norm_num, round_intCast]
  norm_num

/-- Counterexample to C6: at the exact vectors a = (0,0), b = (1,0),
    c = (1,1) the function returns 90.0, not the claimed 45.0 (the angle at
    vertex (1,0) between a leftward and an upward unit ray is a right
    angle). -/
theorem angle_C6_counterexample : calculate_angle (0, 0) (1, 0) (1, 1) ≠ 45 := by
  rw [calculate_angle_corner]
  norm_num

/-- C6 amended: calculate_angle always returns a value between 0 and 180
    degrees; at the exact vectors a = (0,0), b = (1,0), c = (1,1) it
    returns 90.0; and whenever either ray has zero length it returns 0
    without raising an error. -/
theorem angle_C6_amended :
    (∀ a b c : ℝ × ℝ, 0 ≤ calculate_angle a b c ∧ calculate_angle a b c ≤ 180) ∧
    calculate_angle (0, 0) (1, 0) (1, 1) = 90 ∧
    (∀ a b c : ℝ × ℝ,
      norm2 (a.1 - b.1, a.2 - b.2) = 0 ∨ norm2 (c.1 - b.1, c.2 - b.2) = 0 →
      calculate_angle a b c = 0) := by
  refine ⟨fun a b c => ?_, calculate_angle_corner, fun a b c h => ?_⟩
  · unfold calculate_angle
    dsimp only
    split
    · norm_num
    · have h1 := Real.arccos_nonneg (clip (dot2 (a.1 - b.1, a.2 - b.2) (c.1 - b.1, c.2 - b.2) /
        (norm2 (a.1 - b.1, a.2 - b.2) * norm2 (c.1 - b.1, c.2 - b.2))) (-1) 1)
      have h2 := Real.arccos_le_pi (clip (dot2 (a.1 - b.1, a.2 - b.2) (c.1 - b.1, c.2 - b.2) /
        (norm2 (a.1 - b.1, a.2 - b.2) * norm2 (c.1 - b.1, c.2 - b.2))) (-1) 1)
      have h3 := toDegrees_bounds _ h1 h2
      exact roundTo2_bounds _ h3.1 h3.2
  · unfold calculate_angle
    dsimp only
    rw [if_pos h]

/-- Witness for C6 amended: the ray from b = (0,0) to a = (0,0) has zero
    length, and the function returns 0 there. -/
theorem angle_C6_witness : calculate_angle (0, 0) (0, 0) (1, 1) = 0 :=
  angle_C6_amended.2.2 (0, 0) (0, 0) (1, 1)
    (Or.inl (by unfold norm2; norm_num))

/- ===================================================================
   Batch rep estimator (src/app.py, VideoAnalyzer.estimate_rep_count)
   =================================================================== -/

/-- np.mean of a list of scores, as an exact rational. -/
def mean (l : List ℚ) : ℚ := l.sum / l.length

/-- The square of np.std of a list of scores: the population variance, as an
    exact rational.  np.std itself is its (irrational) square root, so the
    threshold test below is phrased through the variance. -/
def variance (l : List ℚ) : ℚ :=
  (l.map (fun s => (s - mean l) ^ 2)).sum / l.length

/-- The test score < threshold of estimate_rep_count, where
    threshold = mean - std: since std = sqrt variance is nonnegative,
    score < mean - sqrt variance holds exactly when score < mean and
    variance < (mean - score)^2, which is decidable over the rationals.
    The lemma belowThreshold_iff proves this equivalence against the real
    sqrt form. -/
def belowThreshold (l : List ℚ) (s : ℚ) : Bool :=
  decide (s < mean l ∧ variance l < (mean l - s) ^ 2)

/-- The population variance is nonnegative. -/
theorem variance_nonneg (l : List ℚ) : 0 ≤ variance l := by
  unfold variance
  apply div_nonneg
  · apply List.sum_nonneg
    intro x hx
    obtain ⟨s, -, rfl⟩ := List.mem_map.mp hx
    positivity
  · exact_mod_cast Nat.zero_le _

/-- belowThreshold is exactly the real-number comparison
    score < mean - sqrt variance made by the Python code. -/
theorem belowThreshold_iff (l : List ℚ) (s : ℚ) :
    belowThreshold l s = true ↔
    (s : ℝ) < (mean l : ℝ) - Real.sqrt ((variance l : ℚ) : ℝ) := by
  unfold belowThreshold
  rw [decide_eq_true_iff]
  have hv : (0 : ℝ) ≤ ((variance l : ℚ) : ℝ) := by
    exact_mod_cast variance_nonneg l
  constructor
  · rintro ⟨h1, h2⟩
    have h1R : (s : ℝ) < ((mean l : ℚ) : ℝ) := by exact_mod_cast h1
    have h2R : ((variance l : ℚ) : ℝ) < (((mean l : ℚ) : ℝ) - (s : ℝ)) ^ 2 := by
      have := h2
      push_cast
      exact_mod_cast this
    have hlt := (Real.sqrt_lt' (by linarith)).mpr h2R
    linarith
  · intro h
    have hnn := Real.sqrt_nonneg ((variance l : ℚ) : ℝ)
    have h1R : (s : ℝ) < ((mean l : ℚ) : ℝ) := by linarith
    refine ⟨by exact_mod_cast h1R, ?_⟩
    have h2R := (Real.sqrt_lt' (by linarith : (0:ℝ) < ((mean l : ℚ) : ℝ) - (s : ℝ))).mp
      (by linarith)
    have : ((variance l : ℚ) : ℝ) < (((mean l - s : ℚ)) : ℝ) ^ 2 := by push_cast; push_cast at h2R; linarith
    exact_mod_cast this

/-- The scanning loop of estimate_rep_count: walks the score list carrying
    the in_low_period flag and the low_form_periods counter; a new period
    is counted when the score drops below the threshold while not already
    in a low period, and the flag clears when the score is at or above the
    threshold. -/
def lowFormLoop (p : ℚ → Bool) : List ℚ → Bool → ℕ → ℕ
  | [], _, acc => acc
  | s :: rest, inLow, acc =>
    if p s && !inLow then lowFormLoop p rest true (acc + 1)
    else if !(p s) then lowFormLoop p rest false acc
    else lowFormLoop p rest inLow acc

/-- estimate_rep_count: 0 for fewer than 10 scores, otherwise the number of
    entries into a below-threshold period minus one, floored at 0. -/
def estimate_rep_count (form_scores : List ℚ) : ℤ :=
  if form_scores.length < 10 then 0
  else max 0 ((lowFormLoop (belowThreshold form_scores) form_scores false 0 : ℤ) - 1)

/-- Specification-side count: the number of positions at which the sequence
    transitions into a below-threshold period, given whether the position
    before the list start was below. -/
def dipsFrom (p : ℚ → Bool) (prevLow : Bool) : List ℚ → ℕ
  | [] => 0
  | s :: rest => (if p s && !prevLow then 1 else 0) + dipsFrom p (p s) rest

/-- The number of transitions of a score sequence into a below-threshold
    period (a dip at the very first position counts). -/
def dips (p : ℚ → Bool) (l : List ℚ) : ℕ := dipsFrom p false l

/-- The source loop computes exactly the transition count. -/
theorem lowFormLoop_eq_dipsFrom (p : ℚ → Bool) (l : List ℚ) :
    ∀ (b : Bool) (acc : ℕ), lowFormLoop p l b acc = acc + dipsFrom p b l := by
  induction l with
  | nil => intro b acc; simp [lowFormLoop, dipsFrom]
  | cons s rest ih =>
    intro b acc
    cases hp : p s <;> cases b <;>
      simp [lowFormLoop, dipsFrom, hp, ih] <;> omega

/-- The mean of a constant list is that constant. -/
theorem mean_replicate (n : ℕ) (c : ℚ) (hn : n ≠ 0) :
    mean (List.replicate n c) = c := by
  unfold mean
  rw [List.sum_replicate, List.length_replicate, nsmul_eq_mul]
  have : (n : ℚ) ≠ 0 := by exact_mod_cast hn
  field_simp

/-- In a constant list no score tests below the threshold: the threshold is
    the mean itself and the strict comparison fails. -/
theorem belowThreshold_replicate_self (n : ℕ) (c : ℚ) (hn : n ≠ 0) :
    belowThreshold (List.replicate n c) c = false := by
  unfold belowThreshold
  rw [mean_replicate n c hn]
  simp

/-- A predicate that fires nowhere yields no dips. -/
theorem dipsFrom_all_false (p : ℚ → Bool) :
    ∀ l : List ℚ, (∀ s ∈ l, p s = false) → ∀ b, dipsFrom p b l = 0 := by
  intro l
  induction l with
  | nil => intro _ b; rfl
  | cons s rest ih =>
    intro h b
    have hs : p s = false := h s (List.mem_cons_self s rest)
    simp only [dipsFrom, hs, Bool.false_and, Bool.false_eq_true, if_false]
    rw [ih (fun x hx => h x (List.mem_cons_of_mem s hx)) false]

/-- C2: the batch rep estimator returns 0 for fewer than 10 scores;
    otherwise, with the threshold mean minus standard deviation, it returns
    the number of transitions of the sequence into a below-threshold
    period, minus one, floored at 0; a constant list yields 0 and a list
    with exactly one dip below the threshold yields 0. -/
theorem estimator_C2 :
    (∀ l : List ℚ, l.length < 10 → estimate_rep_count l = 0) ∧
    (∀ l : List ℚ, 10 ≤ l.length →
      estimate_rep_count l = max 0 ((dips (belowThreshold l) l : ℤ) - 1)) ∧
    (∀ (n : ℕ) (c : ℚ), estimate_rep_count (List.replicate n c) = 0) ∧
    (∀ l : List ℚ, dips (belowThreshold l) l = 1 → estimate_rep_count l = 0) := by
  have hpart1 : ∀ l : List ℚ, l.length < 10 → estimate_rep_count l = 0 := by
    intro l h
    unfold estimate_rep_count
    rw [if_pos h]
  have hpart2 : ∀ l : List ℚ, 10 ≤ l.length →
      estimate_rep_count l = max 0 ((dips (belowThreshold l) l : ℤ) - 1) := by
    intro l h
    unfold estimate_rep_count
    rw [if_neg (by omega), lowFormLoop_eq_dipsFrom]
    norm_num [dips]
  refine ⟨hpart1, hpart2, ?_, ?_⟩
  · intro n c
    by_cases hn : n < 10
    · exact hpart1 _ (by rw [List.length_replicate]; omega)
    · rw [hpart2 _ (by rw [List.length_replicate]; omega)]
      have hz : dips (belowThreshold (List.replicate n c)) (List.replicate n c) = 0 := by
        unfold dips
        apply dipsFrom_all_false
        intro s hs
        rw [List.eq_of_mem_replicate hs]
        exact belowThreshold_replicate_self n c (by omega)
      rw [hz]
      norm_num
  · intro l h
    by_cases hl : l.length < 10
    · exact hpart1 l hl
    · rw [hpart2 l (by omega), h]
      norm_num

/-- Witness for C2 at concrete score lists: a 3-score list is too short, a
    10-score list falls under the transition-count formula, and a 10-score
    list with a single dip (one 0 among nine 100s, threshold 90 minus
    std 30) estimates 0 reps. -/
theorem estimator_C2_witness :
    estimate_rep_count [1, 2, 3] = 0 ∧
    estimate_rep_count [100, 100, 100, 100, 100, 100, 100, 100, 100, 0] =
      max 0 ((dips (belowThreshold [100, 100, 100, 100, 100, 100, 100, 100, 100, 0])
        [100, 100, 100, 100, 100, 100, 100, 100, 100, 0] : ℤ) - 1) ∧
    estimate_rep_count [0, 100, 100, 100, 100, 100, 100, 100, 100, 100] = 0 :=
  ⟨estimator_C2.1 _ (by decide),
   estimator_C2.2.1 _ (by decide),
   estimator_C2.2.2.2 _ (by
     norm_num [dips, dipsFrom, belowThreshold, mean, variance])⟩

/- ===================================================================
   Batch session aggregator (src/app.py, VideoAnalyzer.analyze_video)
   =================================================================== -/

/-- The six-angle dict appended to the extractor angle history
    (feature_extractor.angle_history) each frame. -/
structure Angles where
  right_knee_angle : ℚ
  left_knee_angle : ℚ
  right_hip_angle : ℚ
  left_hip_angle : ℚ
  right_elbow_angle : ℚ
  left_elbow_angle : ℚ
  deriving Repr, DecidableEq

/-- The angle part of a feature dict. -/
def Features.anglesOf (f : Features) : Angles :=
  ⟨f.right_knee_angle, f.left_knee_angle, f.right_hip_angle, f.left_hip_angle,
    f.right_elbow_angle, f.left_elbow_angle⟩

/-- Per-joint angular velocity between two successive angle dicts:
    velocity = abs(current - previous) / dt with dt fixed at 1/30 s. -/
def calcVelocities (cur prev : Angles) : Velocities :=
  ⟨|cur.right_knee_angle - prev.right_knee_angle| / (1 / 30),
    |cur.left_knee_angle - prev.left_knee_angle| / (1 / 30),
    |cur.right_hip_angle - prev.right_hip_angle| / (1 / 30),
    |cur.left_hip_angle - prev.left_hip_angle| / (1 / 30),
    |cur.right_elbow_angle - prev.right_elbow_angle| / (1 / 30),
    |cur.left_elbow_angle - prev.left_elbow_angle| / (1 / 30)⟩

/-- calculate_temporal_features: appends the current angle dict to the
    bounded history (deque maxlen 30) and, when the history then holds at
    least two entries (equivalently, when it was nonempty before the
    append), produces the velocities of the current angles against the
    previous entry; on the first frame no temporal features exist. -/
def calculate_temporal_features (history : List Angles) (cur : Angles) :
    List Angles × Option Velocities :=
  let history2 := if history.length < 30 then history ++ [cur] else history.tail ++ [cur]
  match history.getLast? with
  | some prev => (history2, some (calcVelocities cur prev))
  | none => (history2, none)

/-- One key-frame record of the analysis results: frame index, score, and
    the top two issues.  The saved image path is a pure function of the
    frame index and is not modelled. -/
structure KeyFrame where
  frame : ℕ
  score : ℤ
  issues : List String
  deriving Repr, DecidableEq

/-- The SessionAggregate record assembled by analyze_video.  The
    video_duration and fps fields are copied from the input video metadata
    and are not modelled. -/
structure SessionAggregate where
  frames_analyzed : ℕ
  exercise_detected : String
  confidence : ℚ
  form_scores : List ℤ
  issues_detected : List String
  recommendations : List String
  rep_count : ℤ
  key_frames : List KeyFrame
  overall_score : ℤ
  deriving Repr, DecidableEq

/-- The loop state of analyze_video: the module-global extractor angle
    history threaded through the run, the exercise vote sequence (the
    Python tallies votes in an insertion-ordered dict; the vote list in
    cast order carries the same information), the accumulated scores,
    issue, recommendation and key-frame lists, and the two frame
    counters. -/
structure AnalyzeAcc where
  history : List Angles
  votes : List String
  form_scores : List ℤ
  issues : List String
  recommendations : List String
  key_frames : List KeyFrame
  frames_analyzed : ℕ
  frame_count : ℕ
  deriving Repr, DecidableEq

/-- One iteration of the analyze_video frame loop.  A frame is processed
    only when frame_count is divisible by Config.FRAME_SKIP = 3; a frame
    with no pose landmarks (or failed extraction) is skipped; otherwise the
    temporal features are recomputed from the shared extractor history, the
    frame is classified and scored, and the accumulators grow. -/
def analyzeStep (acc : AnalyzeAcc) (frame : Option Features) : AnalyzeAcc :=
  if acc.frame_count % 3 ≠ 0 then { acc with frame_count := acc.frame_count + 1 }
  else
    match frame with
    | none => { acc with frame_count := acc.frame_count + 1 }
    | some f0 =>
      let tf := calculate_temporal_features acc.history f0.anglesOf
      let f : Features := { f0 with temporal := tf.2 }
      let detected := detect_exercise_type f
      let analysis := analyze_form_quality detected f
      let key_frames :=
        if analysis.overall_score < 70 then
          acc.key_frames ++ [⟨acc.frame_count, analysis.overall_score, analysis.issues.take 2⟩]
        else acc.key_frames
      { history := tf.1
        votes := acc.votes ++ [detected]
        form_scores := acc.form_scores ++ [analysis.overall_score]
        issues := acc.issues ++ analysis.issues
        recommendations := acc.recommendations ++ analysis.recommendations
        key_frames := key_frames
        frames_analyzed := acc.frames_analyzed + 1
        frame_count := acc.frame_count + 1 }

/-- VideoAnalyzer.analyze_video over a decoded frame sequence (None marks a
    frame with no classifiable pose).  Returns the result record or the
    explicit no-pose error, paired with the final state of the shared
    module-global extractor history, which the Python keeps across calls.
    Python list(set(...)) deduplication is modelled as first-occurrence
    deduplication (CPython set iteration is deterministic within a process
    for the same insertion sequence). -/
def analyze_video (frames : List (Option Features)) (history0 : List Angles) :
    Except String SessionAggregate × List Angles :=
  let acc0 : AnalyzeAcc := ⟨history0, [], [], [], [], [], 0, 0⟩
  let acc := frames.foldl analyzeStep acc0
  if acc.votes = [] then
    (Except.error "No pose landmarks detected in video", acc.history)
  else
    let most_likely := mostCommon acc.votes
    let confidence : ℚ := (acc.votes.count most_likely : ℚ) / (acc.votes.length : ℚ)
    let overall : ℤ :=
      if acc.form_scores = [] then 0
      else ⌊((acc.form_scores.sum : ℚ) / (acc.form_scores.length : ℚ))⌋
    (Except.ok
      { frames_analyzed := acc.frames_analyzed
        exercise_detected := most_likely
        confidence := confidence
        form_scores := acc.form_scores
        issues_detected := firstKeys acc.issues
        recommendations := firstKeys acc.recommendations
        rep_count := estimate_rep_count (acc.form_scores.map (fun z => (z : ℚ)))
        key_frames := acc.key_frames
        overall_score := overall }, acc.history)

/-- Every iteration advances the raw frame counter by one. -/
theorem analyzeStep_frame_count (acc : AnalyzeAcc) (f : Option Features) :
    (analyzeStep acc f).frame_count = acc.frame_count + 1 := by
  unfold analyzeStep
  repeat' split
  all_goals rfl

/-- The vote list of a run is empty exactly when, beyond the starting
    accumulator being empty, every sampled position of the remaining frame
    list carries no classifiable pose. -/
theorem foldl_votes_nil (frames : List (Option Features)) :
    ∀ acc : AnalyzeAcc,
      (frames.foldl analyzeStep acc).votes = [] ↔
        (acc.votes = [] ∧ ∀ (i : ℕ) (hi : i < frames.length),
          (acc.frame_count + i) % 3 = 0 → frames.get ⟨i, hi⟩ = none) := by
  induction frames with
  | nil =>
    intro acc
    simp
  | cons f rest ih =>
    intro acc
    rw [List.foldl_cons, ih]
    by_cases hc : acc.frame_count % 3 = 0
    · match f with
      | none =>
        have hstep : analyzeStep acc none = { acc with frame_count := acc.frame_count + 1 } := by
          unfold analyzeStep
          rw [if_neg (by omega)]
        rw [hstep]
        dsimp only
        constructor
        · rintro ⟨h1, h2⟩
          refine ⟨h1, ?_⟩
          intro i hi h3
          match i with
          | 0 => rfl
          | j + 1 =>
            rw [List.get_cons_succ]
            exact h2 j (by simpa using hi) (by omega)
        · rintro ⟨h1, h2⟩
          refine ⟨h1, ?_⟩
          intro i hi h3
          have := h2 (i + 1) (by simpa using hi) (by omega)
          simpa using this
      | some f0 =>
        have hstep : (analyzeStep acc (some f0)).votes
            = acc.votes ++ [detect_exercise_type
                { f0 with temporal := (calculate_temporal_features acc.history f0.anglesOf).2 }] := by
          unfold analyzeStep
          rw [if_neg (by omega)]
        constructor
        · rintro ⟨h1, -⟩
          rw [hstep] at h1
          exact absurd h1 (by simp)
        · rintro ⟨-, h2⟩
          have := h2 0 (by simp) (by omega)
          exact absurd this (by simp)
    · have hstep : analyzeStep acc f = { acc with frame_count := acc.frame_count + 1 } := by
        unfold analyzeStep
        rw [if_pos hc]
      rw [hstep]
      dsimp only
      constructor
      · rintro ⟨h1, h2⟩
        refine ⟨h1, ?_⟩
        intro i hi h3
        match i with
        | 0 => exact absurd (by simpa using h3) hc
        | j + 1 =>
          rw [List.get_cons_succ]
          exact h2 j (by simpa using hi) (by omega)
      · rintro ⟨h1, h2⟩
        refine ⟨h1, ?_⟩
        intro i hi h3
        have := h2 (i + 1) (by simpa using hi) (by omega)
        simpa using this

/-- C7: the batch aggregator reports the explicit no-pose error exactly when
    no sampled frame of the run (every third frame, starting at index 0)
    carries a classifiable pose; as soon as one sampled frame is
    classifiable, a result record is returned instead. -/
theorem session_empty_error_C7 (frames : List (Option Features)) (history0 : List Angles) :
    (analyze_video frames history0).1 = Except.error "No pose landmarks detected in video" ↔
      ∀ (i : ℕ) (hi : i < frames.length), i % 3 = 0 → frames.get ⟨i, hi⟩ = none := by
  unfold analyze_video
  dsimp only
  split
  · rename_i hv
    rw [foldl_votes_nil] at hv
    constructor
    · intro _
      intro i hi h3
      exact hv.2 i hi (by simpa using h3)
    · intro _
      rfl
  · rename_i hv
    constructor
    · intro h
      exact absurd h (by simp)
    · intro h
      exfalso
      apply hv
      rw [foldl_votes_nil]
      exact ⟨rfl, fun i hi h3 => h i hi (by simpa using h3)⟩

/-- Witness for C7: a single unclassifiable frame yields the error record,
    and a single classifiable frame does not. -/
theorem session_empty_error_C7_witness :
    (analyze_video [none] []).1 = Except.error "No pose landmarks detected in video" ∧
    ¬((analyze_video [some bothRulesVec] []).1
        = Except.error "No pose landmarks detected in video") := by
  constructor
  · exact (session_empty_error_C7 [none] []).mpr (by
      intro i hi _
      match i, hi with
      | 0, _ => rfl)
  · intro h
    have := (session_empty_error_C7 [some bothRulesVec] []).mp h 0 (by norm_num) (by norm_num)
    exact Option.noConfusion this

/-- A second squat frame differing from bothRulesVec only in knee angles, so
    that consecutive distinct frames produce a large knee velocity. -/
def kneeB : Features :=
  { bothRulesVec with right_knee_angle := 110, left_knee_angle := 110 }

/-- The angle dict of bothRulesVec. -/
def anglesA : Angles := ⟨100, 100, 100, 100, 100, 100⟩

/-- The angle dict of kneeB. -/
def anglesB : Angles := ⟨110, 110, 100, 100, 100, 100⟩

/-- A four-frame deterministic clip: classifiable squat frames at the two
    sampled indices 0 and 3, nothing at the skipped indices. -/
def c8frames : List (Option Features) :=
  [some bothRulesVec, none, none, some kneeB]

/-- First run of analyze_video on the clip, from an empty extractor
    history: the first sampled frame has no previous angle entry, so no
    velocity penalty fires there and it scores 100; the second sampled
    frame moves the knees by 10 degrees in one step (300 deg/s), fires the
    speed rule and scores 90. -/
theorem c8_run1 : analyze_video c8frames [] =
    (Except.ok ⟨2, "squat", 1, [100, 90], ["Moving too quickly"],
      ["Slow down for better control"], 0, [], 95⟩, [anglesA, anglesB]) := by
  norm_num [analyze_video, c8frames, analyzeStep, calculate_temporal_features,
    calcVelocities, Features.anglesOf, detect_exercise_type, squat_rule,
    analyze_form_quality, exercise_rule_list, squat_rule_list, visibility_rule,
    applyRule, Features.knee_velocity, bothRulesVec, kneeB, anglesA, anglesB,
    mostCommon, firstKeys, estimate_rep_count, List.count, List.cons_ne_nil,
    Int.floor_intCast, Int.floor_natCast]

/-- Second run of analyze_video on the identical clip, starting from the
    extractor history the first run left behind: now the first sampled
    frame compares against the stale last frame of the previous run, sees a
    300 deg/s knee velocity, fires the speed rule and scores 90 instead of
    100. -/
theorem c8_run2 : analyze_video c8frames [anglesA, anglesB] =
    (Except.ok ⟨2, "squat", 1, [90, 90], ["Moving too quickly"],
      ["Slow down for better control"], 0, [], 90⟩,
      [anglesA, anglesB, anglesA, anglesB]) := by
  norm_num [analyze_video, c8frames, analyzeStep, calculate_temporal_features,
    calcVelocities, Features.anglesOf, detect_exercise_type, squat_rule,
    analyze_form_quality, exercise_rule_list, squat_rule_list, visibility_rule,
    applyRule, Features.knee_velocity, bothRulesVec, kneeB, anglesA, anglesB,
    mostCommon, firstKeys, estimate_rep_count, List.count, List.cons_ne_nil,
    Int.floor_intCast, Int.floor_natCast]

/-- C8 fails on the code: running the aggregator twice in succession on the
    identical deterministic frame sequence yields different
    SessionAggregate records (form scores 100, 90 then 90, 90; overall
    score 95 then 90), because the module-global extractor angle history is
    never reset between runs and the second run computes its first
    velocities against the previous run's last frame. -/
theorem aggregator_determinism_C8_bug :
    (analyze_video c8frames []).1 ≠
      (analyze_video c8frames ((analyze_video c8frames []).2)).1 := by
  rw [c8_run1]
  dsimp only
  rw [c8_run2]
  intro h
  have h2 := Except.ok.inj h
  have h3 := congrArg SessionAggregate.overall_score h2
  norm_num at h3
